import Mathlib

/-!
# Notification routing of the BitTorrent client: embedding and verified properties

A shallow embedding of `src/base/notifications/notificationsmanager.cpp`,
`src/base/notifications/request.h`, `src/base/notifications/dummynotifier.h` and
`src/gui/notifications/guinotificationsmanager.cpp`.

Conventions of the embedding:

* a `QString` is its sequence of UTF-16 code units;
* a `void` method of the Manager is a function on `World`, the explicit state
  made of the settings store, the torrent session, the heap of Notifier objects,
  the Manager's members and logs of the calls made on external collaborators;
* a method that may touch a deleted object returns `Except Fault World`;
* preprocessor symbols (`Q_OS_UNIX`, `QT_DBUS_LIB`, ...) are fields of `Platform`;
* library functions and declarations that the sources use but do not define
  (`tr`, `QString::arg`, `QDir::absoluteFilePath`, the initial scalars of a `Request`) are fields of
  `Decls`.
-/

namespace Notifications

/-! ## Strings, variants, maps -/

/-- A `QString`: the sequence of its UTF-16 code units. -/
abbrev QString := List Nat

/-- The `QLatin1String` / ASCII literal with the given characters. -/
def QString.fromLatin1 (s : String) : QString := s.toList.map Char.toNat

/-- The order `operator<` of `QString`: lexicographic on the code units. -/
def QString.lt : QString → QString → Bool
  | [], [] => false
  | [], _ :: _ => true
  | _ :: _, [] => false
  | a :: as, b :: bs => if a < b then true else if b < a then false else QString.lt as bs

/-- The `QString::toLower` of the code units A to Z (all that `QVariant::toBool` needs). -/
def QString.toLower (s : QString) : QString :=
  s.map fun c => if 65 ≤ c ∧ c ≤ 90 then c + 32 else c

/-- The `QVariant` values a settings store holds. -/
inductive QVariant where
  | invalid
  | bool (b : Bool)
  | int (i : Int)
  | string (s : QString)
deriving DecidableEq, Repr

/-- The conversion `QVariant::toBool`: an invalid variant is false, a number is true when non zero,
a string is true unless it is empty, "0" or "false" in lower case. -/
def QVariant.toBool : QVariant → Bool
  | .invalid => false
  | .bool b => b
  | .int i => i != 0
  | .string s =>
      !(s.toLower == [] || s.toLower == QString.fromLatin1 "0"
        || s.toLower == QString.fromLatin1 "false")

/-- The type `Request::ActionsMap`, a `QMap<QString,QString>`: the entries, which
iteration visits from the first to the last. -/
abbrev ActionsMap := List (QString × QString)

/-- The method `QMap::insert`: the entry goes before the first greater key; the value of an
equivalent key is replaced. -/
def ActionsMap.insert (k v : QString) : ActionsMap → ActionsMap
  | [] => [(k, v)]
  | (k', v') :: rest =>
      if QString.lt k k' then (k, v) :: (k', v') :: rest
      else if QString.lt k' k then (k', v') :: ActionsMap.insert k v rest
      else (k', v) :: rest

/-! ## Request (request.h) -/

inductive Category where
  | Generic
  | Download
  | Network
deriving DecidableEq, Repr

inductive Urgency where
  | Low
  | Normal
  | High
deriving DecidableEq, Repr

inductive Severity where
  | No
  | Information
  | Warning
  | Error
deriving DecidableEq, Repr

/-- The type `BitTorrent::InfoHash`: the hash string, empty for the default-constructed
(invalid) hash. -/
abbrev InfoHash := QString

/-- The part of `BitTorrent::TorrentHandle` the Manager reads. -/
structure TorrentHandle where
  hash : InfoHash
  name : QString
  savePath : QString
  rootPath : QString
  files : List QString
deriving DecidableEq, Repr

def TorrentHandle.filesCount (h : TorrentHandle) : Nat := h.files.length

def TorrentHandle.filePath (h : TorrentHandle) (index : Nat) : QString := h.files.getD index []

/-- The data members of `Notifications::Request`. -/
structure Request where
  m_title : QString
  m_message : QString
  m_category : Category
  m_urgency : Urgency
  m_severity : Severity
  m_torrentHash : InfoHash
  m_actions : ActionsMap
  m_timeout : Int
  m_userData : QVariant
deriving DecidableEq, Repr

/-- The values `Request::Request()` gives the members of enum and int type. -/
structure RequestInit where
  category : Category
  urgency : Urgency
  severity : Severity
  timeout : Int
deriving DecidableEq, Repr

/-- What the sources use without defining it. -/
structure Decls where
  /-- The translation `QObject::tr(sourceText, disambiguation)`. -/
  tr : String → String → QString
  /-- The substitution `QString::arg(a)` applied to a format string. -/
  arg : QString → QString → QString
  /-- The path `QDir(dir).absoluteFilePath(fileName)`. -/
  absoluteFilePath : QString → QString → QString
  /-- The scalars set by `Request::Request()`. -/
  requestInit : RequestInit

namespace Request

def title (r : Request) : QString := r.m_title
def message (r : Request) : QString := r.m_message
def category (r : Request) : Category := r.m_category
def urgency (r : Request) : Urgency := r.m_urgency
def severity (r : Request) : Severity := r.m_severity
def torrent (r : Request) : InfoHash := r.m_torrentHash
def actions (r : Request) : ActionsMap := r.m_actions
def timeout (r : Request) : Int := r.m_timeout
def userData (r : Request) : QVariant := r.m_userData

/-- Modelled from the spec: the setters of `Request` are declared in request.h, their
bodies are in request.cpp, which is missing; each stores its argument in the member it
names and returns the request. -/
def setTitle (r : Request) (title : QString) : Request := { r with m_title := title }
def setMessage (r : Request) (message : QString) : Request := { r with m_message := message }
def setCategory (r : Request) (category : Category) : Request := { r with m_category := category }
def setUrgency (r : Request) (urgency : Urgency) : Request := { r with m_urgency := urgency }
def setSeverity (r : Request) (severity : Severity) : Request := { r with m_severity := severity }
def setTimeout (r : Request) (timeout : Int) : Request := { r with m_timeout := timeout }
def setUserData (r : Request) (data : QVariant) : Request := { r with m_userData := data }

/-- Modelled from the spec: `Request::setTorrent(TorrentHandle*)` is defined in the
missing request.cpp; the request keeps the identifier (content hash) of the torrent. -/
def setTorrent (r : Request) (torrent : TorrentHandle) : Request :=
  { r with m_torrentHash := torrent.hash }

/-- Modelled from the spec: `Request::addAction` is defined in the missing request.cpp;
it records the label under the identifier in `m_actions`, whose type request.h fixes
to `QMap<QString,QString>`. -/
def addAction (r : Request) (id label : QString) : Request :=
  { r with m_actions := r.m_actions.insert id label }

end Request

set_option linter.dupNamespace false in
/-- Modelled from the spec: `Request::Request()` is declared in request.h and defined
in request.cpp, which is missing. The members of class type (`QString`, `InfoHash`,
`QMap`, `QVariant`) are default-constructed, hence empty; the members of enum and int
type take the constructor's values, a parameter. -/
def Request.Request (init : RequestInit) : Request :=
  { m_title := [], m_message := [], m_category := init.category, m_urgency := init.urgency,
    m_severity := init.severity, m_torrentHash := [], m_actions := [],
    m_timeout := init.timeout, m_userData := QVariant.invalid }

/-! ## The state the Manager works on -/

/-- The preprocessor symbols the sources branch on. -/
structure Platform where
  Q_OS_UNIX : Bool
  Q_OS_MAC : Bool
  Q_OS_WIN : Bool
  QT_DBUS_LIB : Bool
deriving DecidableEq, Repr

/-- The condition `(defined(Q_OS_UNIX) && !defined(Q_OS_MAC)) && defined(QT_DBUS_LIB)`. -/
def Platform.hasDBusNotifier (p : Platform) : Bool :=
  (p.Q_OS_UNIX && !p.Q_OS_MAC) && p.QT_DBUS_LIB

/-- A `QUrl`, kept as the call that built it. -/
inductive QUrl where
  | fromLocalFile (localFile : QString)
deriving DecidableEq, Repr

/-- The owner (`QObject::parent`) of a Notifier object. -/
inductive QObjectRef where
  | manager
  | other (id : Nat)
deriving DecidableEq, Repr

/-- The concrete classes of Notifier; `Other` stands for any class of a caller. -/
inductive NotifierClass where
  | DBusNotifier
  | SystemTrayNotifier (systemTrayIcon : Option Nat)
  | DummyNotifier
  | Other (tag : Nat)
deriving DecidableEq, Repr

/-- A live Notifier object. -/
structure Notifier where
  cls : NotifierClass
  parent : Option QObjectRef
deriving DecidableEq, Repr

/-- What a call left outside the program. -/
inductive Effect where
  | processExecute (program : String) (url : QUrl)
  | desktopServicesOpenUrl (url : QUrl)
deriving DecidableEq, Repr

/-- Modelled from the spec: the class `SettingsStorage` (base/settingsstorage.h) is
missing; it is the generic key-value settings store, here the stored pairs. -/
abbrev SettingsStorage := List (QString × QVariant)

/-- Modelled from the spec: `SettingsStorage::loadValue(key, defaultValue)` returns the
value stored under the key, and the default when none is stored. -/
def SettingsStorage.loadValue (s : SettingsStorage) (key : QString) (defaultValue : QVariant) :
    QVariant :=
  match s.lookup key with
  | some v => v
  | none => defaultValue

/-- Modelled from the spec: the default argument of `SettingsStorage::loadValue`, which
the call with the key alone relies on; the store has no default of its own for a key (the
"default true" of the flag is the argument areNotificationsEnabled passes), so a missing
key yields a default-constructed, invalid `QVariant`. -/
def SettingsStorage.loadValueDefault : QVariant := QVariant.invalid

/-- Modelled from the spec: `SettingsStorage::storeValue(key, value)` makes the value
the one stored under the key. -/
def SettingsStorage.storeValue (s : SettingsStorage) (key : QString) (value : QVariant) :
    SettingsStorage :=
  (key, value) :: s.filter fun e => e.1 != key

/-- Undefined behaviour the embedding makes explicit. -/
inductive Fault where
  | deletedObjectUsed (address : Nat)
deriving DecidableEq, Repr

/-- The explicit state. -/
structure World where
  /-- The store behind `SettingsStorage::instance()`. -/
  settings : SettingsStorage
  /-- The torrents of `BitTorrent::Session::instance()`. -/
  torrents : List TorrentHandle
  /-- The live Notifier objects, by address. -/
  heap : Nat → Option Notifier
  /-- The address the next `new` returns. -/
  nextAddress : Nat
  /-- The pointer `Application::mainWindow()->getSystemTrayIcon()`, the main window existing. -/
  systemTrayIcon : Option Nat
  /-- The member `Manager::m_notifier`, a `QPointer<Notifier>`. -/
  m_notifier : Option Nat
  /-- The notifiers whose `notificationActionTriggered` signal is connected to the Manager. -/
  connected : List Nat
  /-- Whether `connectSlots` has wired the session signals to the handlers. -/
  slotsConnected : Bool
  /-- Log: every Request handed to `Request::exec`. -/
  executed : List Request
  /-- Log: every call `showNotification(request)`, with the address of the notifier. -/
  shown : List (Nat × Request)
  /-- Log: every call of the `openUrl` primitive. -/
  openUrlCalls : List QUrl
  /-- Log: what the primitives did outside the program. -/
  effects : List Effect

namespace World

/-- The expression `new T(parent)` for a Notifier class `T`. -/
def newNotifier (w : World) (cls : NotifierClass) (parent : Option QObjectRef) : Nat × World :=
  (w.nextAddress,
   { w with
     heap := fun a => if a = w.nextAddress then some { cls := cls, parent := parent } else w.heap a
     nextAddress := w.nextAddress + 1 })

/-- The statement `delete p` on a live Notifier: the object is destroyed and its
connections go with it. -/
def delete (w : World) (address : Nat) : World :=
  { w with
    heap := fun a => if a = address then none else w.heap a
    connected := w.connected.filter fun a => a != address }

/-- The call `QPointer::data()`: null once the object has been destroyed. -/
def data (w : World) (pointer : Option Nat) : Option Nat :=
  match pointer with
  | some a => if (w.heap a).isSome then some a else none
  | none => none

end World

/-! ## Notifier (notifier.h, dummynotifier.h) -/

/-- Modelled from the spec: `Notifier::showNotification` is declared in
dummynotifier.h for the no-op notifier and defined in missing files; each call is
logged with the notifier it reached (what a notifier then displays is its own affair,
the no-op notifier discarding the request). -/
def Notifier.showNotification (address : Nat) (request : Request) (w : World) : World :=
  { w with shown := w.shown ++ [(address, request)] }

/-! ## Manager (notificationsmanager.cpp) -/

/-- The macro `SETTINGS_KEY(name)`. -/
def SETTINGS_KEY (name : String) : QString := QString.fromLatin1 ("Notifications/" ++ name)

def KEY_NOTIFICATIONS_ENABLED : QString := SETTINGS_KEY "Enabled"

def KEY_NOTIFICATIONS_TORRENTADDED : QString := SETTINGS_KEY "TorrentAdded"

def ACTION_NAME_OPEN_FINISHED_TORRENT : QString := QString.fromLatin1 "document-open"

/-- Modelled from the spec: the constant `ACTION_NAME_DEFAULT` is used by
notificationsmanager.cpp and declared in a missing header; it is the distinguished
"default" action identifier, the primary click of a notification. -/
def ACTION_NAME_DEFAULT : QString := QString.fromLatin1 "default"

/-- Which class the Manager object has: it decides the virtual `openUrl`. -/
inductive ManagerClass where
  | Manager
  | GuiManager
deriving DecidableEq, Repr

/-- Modelled from the spec: `BitTorrent::Session::findTorrent(hash)` is missing; it is
the torrent of the session with that hash, null when there is none. -/
def Session.findTorrent (w : World) (hash : InfoHash) : Option TorrentHandle :=
  w.torrents.find? fun t => t.hash == hash

def getUrlForTorrentOpen (d : Decls) (h : TorrentHandle) : QUrl :=
  if h.filesCount = 1 then
    QUrl.fromLocalFile (d.absoluteFilePath h.savePath (h.filePath 0))
  else
    QUrl.fromLocalFile h.rootPath

namespace Manager

def areNotificationsEnabled (w : World) : Bool :=
  (w.settings.loadValue KEY_NOTIFICATIONS_ENABLED (QVariant.bool true)).toBool

def setNotificationsEnabled (value : Bool) (w : World) : World :=
  { w with settings := w.settings.storeValue KEY_NOTIFICATIONS_ENABLED (QVariant.bool value) }

/-- The accessor `notifier()`, that is `m_notifier.data()`. -/
def notifier (w : World) : Option Nat := w.data w.m_notifier

/-- The primitive `Manager::openUrl`; every call is logged in `openUrlCalls`. -/
def openUrl (p : Platform) (url : QUrl) (w : World) : World :=
  let w := { w with openUrlCalls := w.openUrlCalls ++ [url] }
  if p.Q_OS_MAC then
    { w with effects := w.effects ++ [Effect.processExecute "open" url] }
  else if p.Q_OS_UNIX then
    { w with effects := w.effects ++ [Effect.processExecute "xdg-open" url] }
  else if p.Q_OS_WIN then
    { w with effects := w.effects ++ [Effect.processExecute "start" url] }
  else
    w

/-- The function `Manager::createNotifier`. The call `loadValue(KEY_NOTIFICATIONS_ENABLED)`
has one argument: the default value is the default argument of the declaration. -/
def createNotifier (p : Platform) (w : World) : Option Nat × World :=
  if p.hasDBusNotifier then
    if (w.settings.loadValue KEY_NOTIFICATIONS_ENABLED SettingsStorage.loadValueDefault).toBool then
      let r := w.newNotifier NotifierClass.DBusNotifier none
      (some r.1, r.2)
    else
      let r := w.newNotifier NotifierClass.DummyNotifier none
      (some r.1, r.2)
  else
    let r := w.newNotifier NotifierClass.DummyNotifier none
    (some r.1, r.2)

/-- The end of `resetNotifier`: the pointer is stored in `m_notifier`, then
`m_notifier->setParent(this)` and `connect(m_notifier.data(), ...)`. Building a
`QPointer` on a destroyed object and calling through it are undefined. -/
def install (address : Nat) (w : World) : Except Fault World :=
  match w.heap address with
  | none => Except.error (Fault.deletedObjectUsed address)
  | some n =>
      Except.ok
        { w with
          m_notifier := some address
          heap := fun a =>
            if a = address then some { n with parent := some QObjectRef.manager } else w.heap a
          connected := w.connected ++ [address] }

/-- The method `resetNotifier(notifier)`; `createNotifier` is the back-end selection
the object runs for a null argument. -/
def resetNotifier (createNotifier : World → Option Nat × World) (notifier : Option Nat)
    (w : World) : Except Fault World :=
  let w1 :=
    match w.data w.m_notifier with
    | some old => w.delete old
    | none => w
  match notifier with
  | some x => install x w1
  | none =>
      let r := createNotifier w1
      match r.1 with
      | some created => install created r.2
      | none =>
          let r2 := r.2.newNotifier NotifierClass.DummyNotifier (some QObjectRef.manager)
          install r2.1 r2.2

def connectSlots (w : World) : World := { w with slotsConnected := true }

end Manager

set_option linter.dupNamespace false in
/-- The constructor `Manager::Manager(notifier, parent)`, on a Manager whose
`m_notifier` starts null; while it runs, `createNotifier` is the one of `Manager`. -/
def Manager.Manager (p : Platform) (notifier : Option Nat) (w : World) : Except Fault World :=
  (Manager.resetNotifier (Manager.createNotifier p) notifier { w with m_notifier := none }).map
    Manager.connectSlots

namespace GuiManager

def openUrl (url : QUrl) (w : World) : World :=
  { w with
    openUrlCalls := w.openUrlCalls ++ [url]
    effects := w.effects ++ [Effect.desktopServicesOpenUrl url] }

def createNotifier (p : Platform) (w : World) : Option Nat × World :=
  if p.hasDBusNotifier then
    let r := w.newNotifier NotifierClass.DBusNotifier none
    (some r.1, r.2)
  else
    let r := w.newNotifier (NotifierClass.SystemTrayNotifier w.systemTrayIcon) none
    (some r.1, r.2)

end GuiManager

set_option linter.dupNamespace false in
/-- The constructor `GuiManager::GuiManager(parent)`. -/
def GuiManager.GuiManager (p : Platform) (w : World) : Except Fault World :=
  let r := GuiManager.createNotifier p w
  Manager.Manager p r.1 r.2

/-- The virtual call `openUrl(url)` on a Manager of the given class. -/
def ManagerClass.openUrl (c : ManagerClass) (p : Platform) (url : QUrl) (w : World) : World :=
  match c with
  | ManagerClass.Manager => Manager.openUrl p url w
  | ManagerClass.GuiManager => GuiManager.openUrl url w

/-- Modelled from the spec: `Request::exec` is declared in request.h and defined in the
missing request.cpp. The execution step hands the request to the Manager, which
forwards it to the active Notifier; the global enabled flag is enforced by the
execution step: a request executed while notifications are disabled is not displayed. -/
def Request.exec (r : Notifications.Request) (w : World) : World :=
  let w := { w with executed := w.executed ++ [r] }
  if Manager.areNotificationsEnabled w then
    match Manager.notifier w with
    | some n => Notifier.showNotification n r w
    | none => w
  else
    w

namespace Manager

def handleAddTorrentFailure (d : Decls) (error : QString) (w : World) : World :=
  Request.Request d.requestInit
    |>.setTitle (d.tr "Error" "")
    |>.setMessage (d.arg (d.tr "Failed to add torrent: %1" "") error)
    |>.setCategory Category.Generic
    |>.setSeverity Severity.Error
    |>.setUrgency Urgency.High
    |>.setTimeout 0
    |>.exec w

def handleTorrentFinished (d : Decls) (torrent : TorrentHandle) (w : World) : World :=
  Request.Request d.requestInit
    |>.setTitle (d.tr "Download completion" "")
    |>.setMessage (d.arg
        (d.tr "%1 has finished downloading." "e.g: xxx.avi has finished downloading.")
        torrent.name)
    |>.setCategory Category.Download
    |>.setTorrent torrent
    |>.setSeverity Severity.Information
    |>.setTimeout 0
    |>.addAction ACTION_NAME_OPEN_FINISHED_TORRENT (d.tr "Open" "Open donwloaded torrent")
    |>.addAction ACTION_NAME_DEFAULT (d.tr "View" "View torrent")
    |>.exec w

def handleFullDiskError (d : Decls) (torrent : TorrentHandle) (msg : QString) (w : World) :
    World :=
  Request.Request d.requestInit
    |>.setTitle (d.tr "I/O Error" "i.e: Input/Output Error")
    |>.setMessage (d.arg (d.arg
        (d.tr "An I/O error occurred for torrent %1.\n Reason: %2"
          "e.g: An error occurred for torrent xxx.avi.\n Reason: disk is full.")
        torrent.name) msg)
    |>.setCategory Category.Download
    |>.setTorrent torrent
    |>.setSeverity Severity.Error
    |>.setUrgency Urgency.High
    |>.setTimeout 0
    |>.exec w

def handleDownloadFromUrlFailure (d : Decls) (url reason : QString) (w : World) : World :=
  Request.Request d.requestInit
    |>.setTitle (d.tr "Url download error" "")
    |>.setMessage (d.arg (d.arg
        (d.tr "Couldn't download file at url: %1, reason: %2." "") url) reason)
    |>.setCategory Category.Download
    |>.setSeverity Severity.Error
    |>.setUrgency Urgency.High
    |>.setTimeout 0
    |>.exec w

end Manager

/-- The slot `notificationActionTriggered(request, actionId)`; nothing defines
`PORT_TO_GUI`, its branch is not compiled. -/
def Manager.notificationActionTriggered (c : ManagerClass) (p : Platform) (d : Decls)
    (request : Request) (actionId : QString) (w : World) : World :=
  if actionId = ACTION_NAME_OPEN_FINISHED_TORRENT then
    match Session.findTorrent w request.torrent with
    | some h => c.openUrl p (getUrlForTorrentOpen d h) w
    | none => w
  else
    w

def Manager.notificationClosed (w : World) : World := w

/-- The signals of the session that `connectSlots` wires to the handlers. -/
inductive SessionSignal where
  | fullDiskError (torrent : TorrentHandle) (msg : QString)
  | addTorrentFailed (error : QString)
  | torrentFinished (torrent : TorrentHandle)
  | downloadFromUrlFailed (url reason : QString)
deriving DecidableEq, Repr

/-- The slot `connectSlots` connected to the signal. -/
def Manager.handle (d : Decls) (s : SessionSignal) (w : World) : World :=
  match s with
  | SessionSignal.fullDiskError torrent msg => Manager.handleFullDiskError d torrent msg w
  | SessionSignal.addTorrentFailed error => Manager.handleAddTorrentFailure d error w
  | SessionSignal.torrentFinished torrent => Manager.handleTorrentFinished d torrent w
  | SessionSignal.downloadFromUrlFailed url reason =>
      Manager.handleDownloadFromUrlFailure d url reason w

/-- A sequence of `addAction` calls on a request, the first call first. -/
def addActions (r : Request) (calls : List (QString × QString)) : Request :=
  calls.foldl (fun q c => q.addAction c.1 c.2) r

/-- The order of the entries of a `QMap`: ascending keys. -/
def ActionsMap.Sorted (m : ActionsMap) : Prop :=
  List.Pairwise (fun a b => QString.lt a.1 b.1 = true) m

instance (m : ActionsMap) : Decidable m.Sorted := by
  unfold ActionsMap.Sorted
  infer_instance

/-! ## Concrete inputs -/

/-- A Linux desktop build with D-Bus. -/
def linuxDBus : Platform :=
  { Q_OS_UNIX := true, Q_OS_MAC := false, Q_OS_WIN := false, QT_DBUS_LIB := true }

/-- A Windows build. -/
def windows : Platform :=
  { Q_OS_UNIX := false, Q_OS_MAC := false, Q_OS_WIN := true, QT_DBUS_LIB := false }

/-- No translation loaded, markers replaced by appending, paths joined with a slash. -/
def plainDecls : Decls :=
  { tr := fun sourceText _ => QString.fromLatin1 sourceText
    arg := fun format a => format ++ a
    absoluteFilePath := fun dir fileName => dir ++ QString.fromLatin1 "/" ++ fileName
    requestInit :=
      { category := Category.Generic, urgency := Urgency.Normal, severity := Severity.No,
        timeout := -1 } }

/-- The single-file torrent "movie.mkv". -/
def movieTorrent : TorrentHandle :=
  { hash := QString.fromLatin1 "c12fe1c06bba254a9dc9f519b335aa7c1367a88a"
    name := QString.fromLatin1 "movie.mkv"
    savePath := QString.fromLatin1 "/home/user/Downloads"
    rootPath := QString.fromLatin1 "/home/user/Downloads/movie.mkv"
    files := [QString.fromLatin1 "movie.mkv"] }

/-- A fresh process: nothing stored, no torrent, no Notifier object, no Manager member set. -/
def freshWorld : World :=
  { settings := [], torrents := [], heap := fun _ => none, nextAddress := 1,
    systemTrayIcon := none, m_notifier := none, connected := [], slotsConnected := false,
    executed := [], shown := [], openUrlCalls := [], effects := [] }

/-- A session that holds the torrent "movie.mkv". -/
def movieWorld : World := { freshWorld with torrents := [movieTorrent] }

/-- The request handleTorrentFinished builds for "movie.mkv". -/
def movieRequest : Request :=
  Request.Request plainDecls.requestInit
    |>.setCategory Category.Download
    |>.setTorrent movieTorrent
    |>.setSeverity Severity.Information
    |>.setTimeout 0

/-- The fresh process with notifications disabled in the settings. -/
def disabledWorld : World :=
  { freshWorld with settings := [(KEY_NOTIFICATIONS_ENABLED, QVariant.bool false)] }

/-- The state a result carries, the given state when the call faulted. -/
def stateOf (fallback : World) (result : Except Fault World) : World :=
  match result with
  | Except.ok w => w
  | Except.error _ => fallback

/-- The disabled process once a GuiManager has been constructed on a D-Bus platform. -/
def disabledGuiWorld : World := stateOf disabledWorld (GuiManager.GuiManager linuxDBus disabledWorld)

/-- A caller has built a Notifier of its own class at address 7; a base Manager has been
constructed with a null notifier on a D-Bus platform. -/
def callerWorld : World :=
  stateOf freshWorld (Manager.Manager linuxDBus none
    { freshWorld with
      heap := fun a => if a = 7 then some { cls := NotifierClass.Other 0, parent := none } else none
      nextAddress := 8 })

/-- The state after the caller passed its notifier to `resetNotifier`. -/
def managedWorld : World :=
  stateOf callerWorld
    (Manager.resetNotifier (Manager.createNotifier linuxDBus) (some 7) callerWorld)

/-- The two `addAction` calls of handleTorrentFinished, in the order of the source. -/
def finishedCalls : List (QString × QString) :=
  [(ACTION_NAME_OPEN_FINISHED_TORRENT, plainDecls.tr "Open" "Open donwloaded torrent"),
   (ACTION_NAME_DEFAULT, plainDecls.tr "View" "View torrent")]

/-- A back-end selection that produces no notifier. -/
def noBackEnd (w : World) : Option Nat × World := (none, w)

/-- A caller has built a Notifier of its own class at address 7; the Manager has no
notifier yet. -/
def unmanagedWorld : World :=
  { freshWorld with
    heap := fun a => if a = 7 then some { cls := NotifierClass.Other 0, parent := none } else none
    nextAddress := 8 }

/-- The state after `resetNotifier(nullptr)` with a selection that produced nothing. -/
def fallbackWorld : World :=
  stateOf unmanagedWorld (Manager.resetNotifier noBackEnd none unmanagedWorld)

/-- The state after the caller then passed its notifier to `resetNotifier`. -/
def replacedWorld : World :=
  stateOf fallbackWorld (Manager.resetNotifier noBackEnd (some 7) fallbackWorld)

/-! ## Lemmas on the order of `QString` and on `QMap::insert` -/

theorem QString.lt_trans : ∀ (a b c : QString),
    QString.lt a b = true → QString.lt b c = true → QString.lt a c = true
  | [], [], _, hab, _ => by simp [QString.lt] at hab
  | [], _ :: _, [], _, hbc => by simp [QString.lt] at hbc
  | [], _ :: _, _ :: _, _, _ => by simp [QString.lt]
  | _ :: _, [], _, hab, _ => by simp [QString.lt] at hab
  | _ :: _, _ :: _, [], _, hbc => by simp [QString.lt] at hbc
  | x :: xs, y :: ys, z :: zs, hab, hbc => by
      simp only [QString.lt] at hab hbc ⊢
      by_cases hxy : x < y
      · by_cases hyz : y < z
        · have hxz : x < z := Nat.lt_trans hxy hyz
          simp [hxz]
        · by_cases hzy : z < y
          · simp [hyz, hzy] at hbc
          · have hxz : x < z := by omega
            simp [hxz]
      · by_cases hyx : y < x
        · simp [hxy, hyx] at hab
        · have hxy2 : x = y := by omega
          subst hxy2
          by_cases hxz : x < z
          · simp [hxz]
          · by_cases hzx : z < x
            · simp [hxz, hzx] at hbc
            · simp only [hxy, hxz, hzx, if_false] at hab hbc ⊢
              exact QString.lt_trans xs ys zs hab hbc

theorem QString.eq_of_not_lt : ∀ (a b : QString),
    QString.lt a b = false → QString.lt b a = false → a = b
  | [], [], _, _ => rfl
  | [], _ :: _, hab, _ => by simp [QString.lt] at hab
  | _ :: _, [], _, hba => by simp [QString.lt] at hba
  | x :: xs, y :: ys, hab, hba => by
      simp only [QString.lt] at hab hba
      by_cases hxy : x < y
      · simp [hxy] at hab
      · by_cases hyx : y < x
        · simp [hyx] at hba
        · have hxy2 : x = y := by omega
          subst hxy2
          simp only [hxy, if_false] at hab hba
          rw [QString.eq_of_not_lt xs ys hab hba]

theorem ActionsMap.key_of_mem_insert (k v : QString) : ∀ (m : ActionsMap) (e : QString × QString),
    e ∈ m.insert k v → e.1 = k ∨ e.1 ∈ m.map Prod.fst
  | [], e, he => by
      simp [ActionsMap.insert] at he
      simp [he]
  | (k1, v1) :: rest, e, he => by
      simp only [ActionsMap.insert] at he
      split at he
      · rcases List.mem_cons.1 he with h | h
        · left
          rw [h]
        · right
          exact List.mem_map_of_mem Prod.fst h
      · split at he
        · rcases List.mem_cons.1 he with h | h
          · right
            rw [h]
            simp
          · rcases ActionsMap.key_of_mem_insert k v rest e h with h1 | h1
            · exact Or.inl h1
            · right
              simp only [List.map_cons, List.mem_cons]
              exact Or.inr h1
        · rcases List.mem_cons.1 he with h | h
          · right
            rw [h]
            simp
          · right
            simp only [List.map_cons, List.mem_cons]
            exact Or.inr (List.mem_map_of_mem Prod.fst h)

theorem ActionsMap.insert_sorted (k v : QString) : ∀ (m : ActionsMap),
    m.Sorted → (m.insert k v).Sorted
  | [], _ => by simp [ActionsMap.insert, ActionsMap.Sorted]
  | (k1, v1) :: rest, hm => by
      unfold ActionsMap.Sorted at hm ⊢
      rw [List.pairwise_cons] at hm
      obtain ⟨hhead, htail⟩ := hm
      simp only [ActionsMap.insert]
      split
      · rename_i hlt
        refine List.pairwise_cons.2 ⟨?_, List.pairwise_cons.2 ⟨hhead, htail⟩⟩
        intro e he
        rcases List.mem_cons.1 he with h | h
        · rw [h]
          exact hlt
        · exact QString.lt_trans _ _ _ hlt (hhead e h)
      · split
        · rename_i hnlt hlt
          refine List.pairwise_cons.2 ⟨?_, ActionsMap.insert_sorted k v rest htail⟩
          intro e he
          rcases ActionsMap.key_of_mem_insert k v rest e he with h | h
          · rw [h]
            exact hlt
          · obtain ⟨e1, he1, hk⟩ := List.mem_map.1 h
            rw [← hk]
            exact hhead e1 he1
        · exact List.pairwise_cons.2 ⟨hhead, htail⟩

theorem ActionsMap.insert_perm (k v : QString) : ∀ (m : ActionsMap),
    k ∉ m.map Prod.fst → List.Perm (m.insert k v) ((k, v) :: m)
  | [], _ => by simp [ActionsMap.insert]
  | (k1, v1) :: rest, hk => by
      have hne : k ≠ k1 := by
        intro h
        apply hk
        simp [h]
      have hrest : k ∉ rest.map Prod.fst := by
        intro h
        apply hk
        simp only [List.map_cons, List.mem_cons]
        exact Or.inr h
      simp only [ActionsMap.insert]
      split
      · exact List.Perm.refl _
      · split
        · exact ((ActionsMap.insert_perm k v rest hrest).cons (k1, v1)).trans
            (List.Perm.swap _ _ _)
        · rename_i h1 h2
          have h1f : QString.lt k k1 = false := by simpa using h1
          have h2f : QString.lt k1 k = false := by simpa using h2
          exact absurd (QString.eq_of_not_lt k k1 h1f h2f) hne

theorem addActions_actions (calls : List (QString × QString)) : ∀ r : Request,
    (addActions r calls).actions = calls.foldl (fun m c => ActionsMap.insert c.1 c.2 m) r.actions := by
  induction calls with
  | nil => intro r; rfl
  | cons c cs ih =>
      intro r
      simp only [addActions, List.foldl_cons] at ih ⊢
      rw [ih]
      rfl

theorem ActionsMap.foldl_insert (calls : List (QString × QString)) : ∀ m : ActionsMap,
    m.Sorted → (m.map Prod.fst ++ calls.map Prod.fst).Nodup →
    List.Perm (calls.foldl (fun m c => ActionsMap.insert c.1 c.2 m) m) (m ++ calls) ∧
    ActionsMap.Sorted (calls.foldl (fun m c => ActionsMap.insert c.1 c.2 m) m) := by
  induction calls with
  | nil =>
      intro m hm _
      simpa using hm
  | cons c cs ih =>
      intro m hm hnodup
      have hfresh : c.1 ∉ m.map Prod.fst := by
        intro hmem
        rw [List.nodup_append] at hnodup
        exact hnodup.2.2 hmem (by simp)
      have hperm := ActionsMap.insert_perm c.1 c.2 m hfresh
      have hkeys : List.Perm ((ActionsMap.insert c.1 c.2 m).map Prod.fst ++ cs.map Prod.fst)
          (m.map Prod.fst ++ (c :: cs).map Prod.fst) := by
        have h1 := (hperm.map Prod.fst).append_right (cs.map Prod.fst)
        refine h1.trans ?_
        simp only [List.map_cons, List.cons_append]
        exact List.perm_middle.symm
      obtain ⟨hp, hs⟩ := ih (ActionsMap.insert c.1 c.2 m) (ActionsMap.insert_sorted c.1 c.2 m hm)
        (hkeys.nodup_iff.2 hnodup)
      refine ⟨?_, hs⟩
      simp only [List.foldl_cons]
      refine hp.trans ?_
      refine (hperm.append_right cs).trans ?_
      simp only [List.cons_append]
      exact List.perm_middle.symm

/-! ## Lemmas on the execution step -/

theorem exec_executed (r : Request) (w : World) :
    (r.exec w).executed = w.executed ++ [r] := by
  unfold Request.exec
  simp only
  split
  · split <;> rfl
  · rfl

/-! ## The event handlers -/

/-- Claim C1. Whatever the error text, torrent, message, url and reason, each of
handleAddTorrentFailure, handleFullDiskError and handleDownloadFromUrlFailure hands
exactly one Request to the execution step; it has severity Error, urgency High,
timeout 0 and no action; its category is Generic for the add-torrent failure and
Download for the full-disk error and the download-from-url failure. -/
theorem error_handlers_build_error_request (d : Decls) (w : World)
    (error msg url reason : QString) (torrent : TorrentHandle) :
    (∃ r : Request, (Manager.handleAddTorrentFailure d error w).executed = w.executed ++ [r] ∧
      r.category = Category.Generic ∧ r.severity = Severity.Error ∧
      r.urgency = Urgency.High ∧ r.timeout = 0 ∧ r.actions = []) ∧
    (∃ r : Request, (Manager.handleFullDiskError d torrent msg w).executed = w.executed ++ [r] ∧
      r.category = Category.Download ∧ r.severity = Severity.Error ∧
      r.urgency = Urgency.High ∧ r.timeout = 0 ∧ r.actions = []) ∧
    (∃ r : Request,
      (Manager.handleDownloadFromUrlFailure d url reason w).executed = w.executed ++ [r] ∧
      r.category = Category.Download ∧ r.severity = Severity.Error ∧
      r.urgency = Urgency.High ∧ r.timeout = 0 ∧ r.actions = []) :=
  ⟨⟨_, exec_executed _ w, rfl, rfl, rfl, rfl, rfl⟩,
   ⟨_, exec_executed _ w, rfl, rfl, rfl, rfl, rfl⟩,
   ⟨_, exec_executed _ w, rfl, rfl, rfl, rfl, rfl⟩⟩

/-- Claim C2. For every torrent, handleTorrentFinished hands exactly one Request to the
execution step; it has category Download, severity Information, timeout 0, the hash of
that torrent as torrent reference, the urgency the Request constructor gave it, and an
action map of exactly two entries: "document-open" with the label tr("Open") and the
default action with the label tr("View"). -/
theorem torrent_finished_builds_request (d : Decls) (w : World) (torrent : TorrentHandle) :
    ∃ r : Request, (Manager.handleTorrentFinished d torrent w).executed = w.executed ++ [r] ∧
      r.category = Category.Download ∧ r.severity = Severity.Information ∧ r.timeout = 0 ∧
      r.torrent = torrent.hash ∧ r.urgency = (Request.Request d.requestInit).urgency ∧
      r.actions.length = 2 ∧
      List.Perm r.actions
        [(ACTION_NAME_OPEN_FINISHED_TORRENT, d.tr "Open" "Open donwloaded torrent"),
         (ACTION_NAME_DEFAULT, d.tr "View" "View torrent")] :=
  ⟨_, exec_executed _ w, rfl, rfl, rfl, rfl, rfl, rfl,
    List.Perm.swap _ _ _⟩

/-! ## The action callback -/

theorem ManagerClass.openUrl_openUrlCalls (c : ManagerClass) (p : Platform) (url : QUrl)
    (w : World) : (c.openUrl p url w).openUrlCalls = w.openUrlCalls ++ [url] := by
  cases c
  · simp only [ManagerClass.openUrl, Manager.openUrl]
    split
    · rfl
    · split
      · rfl
      · split <;> rfl
  · rfl

/-- Claim C3. When the torrent reference of the request resolves to a torrent of the
session, notificationActionTriggered with the "open finished torrent" action is exactly
one call of the openUrl primitive: for a torrent of exactly one file, with the local-file
URL of that file's path made absolute against the save path; for a torrent of more than
one file, with the local-file URL of the root path. -/
theorem open_action_opens_file_or_root (c : ManagerClass) (p : Platform) (d : Decls)
    (request : Request) (w : World) (h : TorrentHandle)
    (hfound : Session.findTorrent w request.torrent = some h) :
    ∃ url : QUrl,
      Manager.notificationActionTriggered c p d request ACTION_NAME_OPEN_FINISHED_TORRENT w
        = c.openUrl p url w ∧
      (Manager.notificationActionTriggered c p d request ACTION_NAME_OPEN_FINISHED_TORRENT
        w).openUrlCalls = w.openUrlCalls ++ [url] ∧
      (∀ file : QString, h.files = [file] →
        url = QUrl.fromLocalFile (d.absoluteFilePath h.savePath file)) ∧
      (1 < h.filesCount → url = QUrl.fromLocalFile h.rootPath) := by
  have hstep :
      Manager.notificationActionTriggered c p d request ACTION_NAME_OPEN_FINISHED_TORRENT w
        = c.openUrl p (getUrlForTorrentOpen d h) w := by
    simp [Manager.notificationActionTriggered, hfound]
  refine ⟨getUrlForTorrentOpen d h, hstep, ?_, ?_, ?_⟩
  · rw [hstep]
    exact ManagerClass.openUrl_openUrlCalls c p _ w
  · intro file hfile
    simp [getUrlForTorrentOpen, TorrentHandle.filesCount, TorrentHandle.filePath, hfile]
  · intro hmany
    have hne : h.filesCount ≠ 1 := by omega
    simp [getUrlForTorrentOpen, hne]

/-- Witness of C3: the open action on the request of the single-file torrent "movie.mkv". -/
theorem open_action_opens_file_or_root_witness :
    Session.findTorrent movieWorld movieRequest.torrent = some movieTorrent ∧
    ∃ url : QUrl,
      Manager.notificationActionTriggered ManagerClass.Manager linuxDBus plainDecls movieRequest
        ACTION_NAME_OPEN_FINISHED_TORRENT movieWorld
        = ManagerClass.Manager.openUrl linuxDBus url movieWorld ∧
      (Manager.notificationActionTriggered ManagerClass.Manager linuxDBus plainDecls
        movieRequest ACTION_NAME_OPEN_FINISHED_TORRENT movieWorld).openUrlCalls
        = movieWorld.openUrlCalls ++ [url] ∧
      (∀ file : QString, movieTorrent.files = [file] →
        url = QUrl.fromLocalFile (plainDecls.absoluteFilePath movieTorrent.savePath file)) ∧
      (1 < movieTorrent.filesCount → url = QUrl.fromLocalFile movieTorrent.rootPath) :=
  ⟨by decide,
   open_action_opens_file_or_root ManagerClass.Manager linuxDBus plainDecls movieRequest
     movieWorld movieTorrent (by decide)⟩

/-- Claim C4. For every request and every action identifier other than the "open
finished torrent" one, notificationActionTriggered returns the state it was given: no
call of the openUrl primitive, no member of the Manager changed, and the call ends
normally. -/
theorem other_action_changes_nothing (c : ManagerClass) (p : Platform) (d : Decls)
    (request : Request) (actionId : QString) (w : World)
    (hother : actionId ≠ ACTION_NAME_OPEN_FINISHED_TORRENT) :
    Manager.notificationActionTriggered c p d request actionId w = w := by
  simp [Manager.notificationActionTriggered, hother]

/-- Witness of C4: the default action on the request of "movie.mkv". -/
theorem other_action_changes_nothing_witness :
    ACTION_NAME_DEFAULT ≠ ACTION_NAME_OPEN_FINISHED_TORRENT ∧
    Manager.notificationActionTriggered ManagerClass.GuiManager windows plainDecls movieRequest
      ACTION_NAME_DEFAULT movieWorld = movieWorld :=
  ⟨by decide,
   other_action_changes_nothing ManagerClass.GuiManager windows plainDecls movieRequest
     ACTION_NAME_DEFAULT movieWorld (by decide)⟩

/-! ## The enabled flag -/

theorem exec_shown_of_disabled (r : Request) (w : World)
    (hdisabled : Manager.areNotificationsEnabled w = false) : (r.exec w).shown = w.shown := by
  have h : Manager.areNotificationsEnabled { w with executed := w.executed ++ [r] } = false :=
    hdisabled
  simp [Request.exec, h]

theorem resetNotifier_settings (createNotifier : World → Option Nat × World)
    (hcreate : ∀ w, (createNotifier w).2.settings = w.settings) (n : Option Nat) (w w1 : World)
    (h : Manager.resetNotifier createNotifier n w = Except.ok w1) : w1.settings = w.settings := by
  have hinstall : ∀ (a : Nat) (u v : World), Manager.install a u = Except.ok v →
      v.settings = u.settings := by
    intro a u v hv
    unfold Manager.install at hv
    split at hv
    · cases hv
    · cases hv
      rfl
  have hdelete : ∀ u : World,
      (match u.data u.m_notifier with
        | some old => u.delete old
        | none => u).settings = u.settings := by
    intro u
    split <;> rfl
  unfold Manager.resetNotifier at h
  simp only at h
  cases n with
  | some x =>
      simp only at h
      rw [hinstall _ _ _ h, hdelete]
  | none =>
      simp only at h
      split at h
      · rw [hinstall _ _ _ h, hcreate, hdelete]
      · rw [hinstall _ _ _ h]
        show (createNotifier _).2.settings = _
        rw [hcreate, hdelete]

/-- Claim C5. While the persisted enabled flag is false, the Request built by any event
handler reaches no Notifier at all, hence none other than the no-op notifier: the log of
showNotification calls is unchanged. The state is arbitrary, so this holds for the base
Manager and the GuiManager (which inherits the handlers) and for any installed notifier;
in particular in every state left by resetNotifier(n), n null or not, whatever the
back-end selection, when the flag was false before the call. -/
theorem disabled_flag_blocks_display (d : Decls) (s : SessionSignal) :
    (∀ w : World, Manager.areNotificationsEnabled w = false →
      (Manager.handle d s w).shown = w.shown) ∧
    (∀ (createNotifier : World → Option Nat × World) (n : Option Nat) (w0 w : World),
      (∀ u, (createNotifier u).2.settings = u.settings) →
      Manager.areNotificationsEnabled w0 = false →
      Manager.resetNotifier createNotifier n w0 = Except.ok w →
      (Manager.handle d s w).shown = w.shown) := by
  have hall : ∀ w : World, Manager.areNotificationsEnabled w = false →
      (Manager.handle d s w).shown = w.shown := by
    intro w hdisabled
    cases s <;> exact exec_shown_of_disabled _ w hdisabled
  refine ⟨hall, ?_⟩
  intro createNotifier n w0 w hcreate hdisabled hreset
  apply hall
  have hs := resetNotifier_settings createNotifier hcreate n w0 w hreset
  simpa [Manager.areNotificationsEnabled, hs] using hdisabled

/-- Witness of C5: notifications disabled, a GuiManager that installed the D-Bus notifier,
and the torrent "movie.mkv" finishing. -/
theorem disabled_flag_blocks_display_witness :
    Manager.areNotificationsEnabled disabledGuiWorld = false ∧
    (disabledGuiWorld.heap 1).map Notifier.cls = some NotifierClass.DBusNotifier ∧
    Manager.notifier disabledGuiWorld = some 1 ∧
    (Manager.handle plainDecls (SessionSignal.torrentFinished movieTorrent)
      disabledGuiWorld).shown = disabledGuiWorld.shown :=
  ⟨by decide, by decide, by decide,
   (disabled_flag_blocks_display plainDecls (SessionSignal.torrentFinished movieTorrent)).1
     disabledGuiWorld (by decide)⟩

/-- Claim C8. The enabled flag round-trips through the settings store: after
setNotificationsEnabled(v), areNotificationsEnabled() returns v, for both booleans and
from every state; and when nothing is stored under the key it returns true. -/
theorem enabled_flag_round_trip :
    (∀ (v : Bool) (w : World),
      Manager.areNotificationsEnabled (Manager.setNotificationsEnabled v w) = v) ∧
    (∀ w : World, w.settings.lookup KEY_NOTIFICATIONS_ENABLED = none →
      Manager.areNotificationsEnabled w = true) := by
  constructor
  · intro v w
    simp [Manager.areNotificationsEnabled, Manager.setNotificationsEnabled,
      SettingsStorage.storeValue, SettingsStorage.loadValue, List.lookup, QVariant.toBool]
  · intro w hnone
    simp [Manager.areNotificationsEnabled, SettingsStorage.loadValue, hnone, QVariant.toBool]

/-- Witness of C8: the fresh process, where nothing is stored, and a flag set to false in
a store that held true. -/
theorem enabled_flag_round_trip_witness :
    freshWorld.settings.lookup KEY_NOTIFICATIONS_ENABLED = none ∧
    Manager.areNotificationsEnabled freshWorld = true ∧
    Manager.areNotificationsEnabled
      (Manager.setNotificationsEnabled false (Manager.setNotificationsEnabled true freshWorld))
      = false :=
  ⟨by decide, enabled_flag_round_trip.2 freshWorld (by decide),
   enabled_flag_round_trip.1 false (Manager.setNotificationsEnabled true freshWorld)⟩

/-! ## Back-end selection -/

theorem install_of_live (x : Nat) (n : Notifier) (w : World) (hlive : w.heap x = some n) :
    ∃ w1 : World, Manager.install x w = Except.ok w1 ∧ Manager.notifier w1 = some x ∧
      w1.heap x = some { n with parent := some QObjectRef.manager } := by
  have hok : Manager.install x w = Except.ok
      { w with
        m_notifier := some x
        heap := fun a =>
          if a = x then some { n with parent := some QObjectRef.manager } else w.heap a
        connected := w.connected ++ [x] } := by
    simp [Manager.install, hlive]
  refine ⟨_, hok, ?_, ?_⟩
  · simp [Manager.notifier, World.data]
  · simp

/-- The class `Manager::createNotifier` selects in a state. -/
theorem Manager.createNotifier_eq (p : Platform) (u : World) :
    Manager.createNotifier p u =
      (some u.nextAddress,
        (u.newNotifier
          (if p.hasDBusNotifier = true ∧
              (u.settings.loadValue KEY_NOTIFICATIONS_ENABLED
                SettingsStorage.loadValueDefault).toBool = true
            then NotifierClass.DBusNotifier else NotifierClass.DummyNotifier) none).2) := by
  unfold Manager.createNotifier
  by_cases hp : p.hasDBusNotifier = true
  · by_cases hv : (u.settings.loadValue KEY_NOTIFICATIONS_ENABLED
        SettingsStorage.loadValueDefault).toBool = true
    · simp [hp, hv, World.newNotifier]
    · simp [hp, hv, World.newNotifier]
  · simp [hp, World.newNotifier]

/-- What resetNotifier(null) does on the base Manager, in every state: it ends normally
and installs a new notifier owned by the Manager, the D-Bus notifier when the platform
has it and the value stored under the key converts to true, the DummyNotifier otherwise. -/
theorem resetNotifier_null_base (p : Platform) (w : World) :
    ∃ (w1 : World) (a : Nat),
      Manager.resetNotifier (Manager.createNotifier p) none w = Except.ok w1 ∧
      Manager.notifier w1 = some a ∧
      w1.heap a = some
        { cls :=
            if p.hasDBusNotifier = true ∧
                (w.settings.loadValue KEY_NOTIFICATIONS_ENABLED
                  SettingsStorage.loadValueDefault).toBool = true
              then NotifierClass.DBusNotifier else NotifierClass.DummyNotifier
          parent := some QObjectRef.manager } := by
  have key : ∀ u : World, u.settings = w.settings →
      ∃ (w1 : World) (a : Nat),
        (match (Manager.createNotifier p u).1 with
          | some created => Manager.install created (Manager.createNotifier p u).2
          | none =>
              Manager.install
                ((Manager.createNotifier p u).2.newNotifier NotifierClass.DummyNotifier
                  (some QObjectRef.manager)).1
                ((Manager.createNotifier p u).2.newNotifier NotifierClass.DummyNotifier
                  (some QObjectRef.manager)).2) = Except.ok w1 ∧
        Manager.notifier w1 = some a ∧
        w1.heap a = some
          { cls :=
              if p.hasDBusNotifier = true ∧
                  (w.settings.loadValue KEY_NOTIFICATIONS_ENABLED
                    SettingsStorage.loadValueDefault).toBool = true
                then NotifierClass.DBusNotifier else NotifierClass.DummyNotifier
            parent := some QObjectRef.manager } := by
    intro u hu
    rw [Manager.createNotifier_eq, hu]
    have hlive : (u.newNotifier
        (if p.hasDBusNotifier = true ∧
            (w.settings.loadValue KEY_NOTIFICATIONS_ENABLED
              SettingsStorage.loadValueDefault).toBool = true
          then NotifierClass.DBusNotifier else NotifierClass.DummyNotifier) none).2.heap
          u.nextAddress = some
        { cls :=
            if p.hasDBusNotifier = true ∧
                (w.settings.loadValue KEY_NOTIFICATIONS_ENABLED
                  SettingsStorage.loadValueDefault).toBool = true
              then NotifierClass.DBusNotifier else NotifierClass.DummyNotifier
          parent := none } := by
      simp [World.newNotifier]
    obtain ⟨w1, hok, hn, hh⟩ := install_of_live _ _ _ hlive
    exact ⟨w1, u.nextAddress, hok, hn, hh⟩
  unfold Manager.resetNotifier
  simp only
  cases hold : w.data w.m_notifier with
  | none => exact key w rfl
  | some old => exact key (w.delete old) rfl

/-- Claim C6, the code at the failing input: a D-Bus platform and an empty settings store.
areNotificationsEnabled() is true there, yet resetNotifier(null) installs a
DummyNotifier, because createNotifier reads the key without the default true. -/
theorem reset_null_unset_flag_selects_dummy :
    linuxDBus.hasDBusNotifier = true ∧
    freshWorld.settings.lookup KEY_NOTIFICATIONS_ENABLED = none ∧
    Manager.areNotificationsEnabled freshWorld = true ∧
    ∃ w : World,
      Manager.resetNotifier (Manager.createNotifier linuxDBus) none freshWorld = Except.ok w ∧
      Manager.notifier w = some 1 ∧
      w.heap 1 = some { cls := NotifierClass.DummyNotifier, parent := some QObjectRef.manager } :=
  ⟨by decide, by decide, by decide, _, rfl, by decide, by decide⟩

/-- What resetNotifier(x) does for a live notifier x that is not the installed one: x
becomes the active notifier and the Manager its parent. -/
theorem resetNotifier_of_other_notifier (createNotifier : World → Option Nat × World)
    (x : Nat) (n : Notifier) (w : World) (hlive : w.heap x = some n)
    (hother : Manager.notifier w ≠ some x) :
    ∃ w1 : World, Manager.resetNotifier createNotifier (some x) w = Except.ok w1 ∧
      Manager.notifier w1 = some x ∧
      w1.heap x = some { n with parent := some QObjectRef.manager } := by
  unfold Manager.resetNotifier
  simp only
  cases hold : w.data w.m_notifier with
  | none => exact install_of_live x n w hlive
  | some old =>
      have hne : x ≠ old := by
        intro h
        apply hother
        rw [Manager.notifier, hold, h]
      exact install_of_live x n (w.delete old) (by simp [World.delete, hne, hlive])

/-- Claim C7, the code at the failing input: a caller hands its notifier (address 7) to
resetNotifier, which installs it as the claim says, and then hands the same notifier
again. The second call deletes the installed notifier first, then stores and uses the
pointer: it has no defined result. -/
theorem reset_to_installed_notifier_faults :
    callerWorld.heap 7 = some { cls := NotifierClass.Other 0, parent := none } ∧
    Manager.resetNotifier (Manager.createNotifier linuxDBus) (some 7) callerWorld
      = Except.ok managedWorld ∧
    Manager.notifier managedWorld = some 7 ∧
    managedWorld.heap 7
      = some { cls := NotifierClass.Other 0, parent := some QObjectRef.manager } ∧
    Manager.resetNotifier (Manager.createNotifier linuxDBus) (some 7) managedWorld
      = Except.error (Fault.deletedObjectUsed 7) :=
  ⟨by decide, rfl, by decide, by decide, rfl⟩

/-- Claim C10. The back-end selection of the GuiManager returns a pointer that is not
null, to a new object that is the D-Bus notifier when the platform has it (Unix, not
macOS, D-Bus library) and otherwise a SystemTrayNotifier built on the tray icon of the
main window; the object is never the no-op DummyNotifier. -/
theorem gui_selection_dbus_or_tray (p : Platform) (w : World) :
    ∃ (a : Nat) (n : Notifier),
      (GuiManager.createNotifier p w).1 = some a ∧
      (GuiManager.createNotifier p w).2.heap a = some n ∧
      n.cls = (if p.Q_OS_UNIX = true ∧ p.Q_OS_MAC = false ∧ p.QT_DBUS_LIB = true
        then NotifierClass.DBusNotifier
        else NotifierClass.SystemTrayNotifier w.systemTrayIcon) ∧
      n.cls ≠ NotifierClass.DummyNotifier := by
  by_cases h : p.hasDBusNotifier = true
  · have hc : p.Q_OS_UNIX = true ∧ p.Q_OS_MAC = false ∧ p.QT_DBUS_LIB = true := by
      simpa [Platform.hasDBusNotifier, and_assoc] using h
    refine ⟨w.nextAddress, ⟨NotifierClass.DBusNotifier, none⟩, ?_, ?_, ?_, ?_⟩
    · simp [GuiManager.createNotifier, h, World.newNotifier]
    · simp [GuiManager.createNotifier, h, World.newNotifier]
    · simp [hc]
    · simp
  · have hc : ¬(p.Q_OS_UNIX = true ∧ p.Q_OS_MAC = false ∧ p.QT_DBUS_LIB = true) := by
      simpa [Platform.hasDBusNotifier, and_assoc] using h
    refine ⟨w.nextAddress, ⟨NotifierClass.SystemTrayNotifier w.systemTrayIcon, none⟩,
      ?_, ?_, ?_, ?_⟩
    · simp [GuiManager.createNotifier, h, World.newNotifier]
    · simp [GuiManager.createNotifier, h, World.newNotifier]
    · rw [if_neg hc]
    · simp

/-! ## The order of the actions -/

/-- Claim C9, refuted as stated: the two addAction calls of handleTorrentFinished have
distinct identifiers and actions() does not yield them in the order of the calls; the
Request that handler builds lists the default/view action first. -/
theorem actions_not_in_call_order :
    ¬ (∀ calls : List (QString × QString), (calls.map Prod.fst).Nodup →
        (addActions (Request.Request plainDecls.requestInit) calls).actions = calls) ∧
    (Manager.handleTorrentFinished plainDecls movieTorrent movieWorld).executed.map
        Request.actions
      = [[(ACTION_NAME_DEFAULT, plainDecls.tr "View" "View torrent"),
          (ACTION_NAME_OPEN_FINISHED_TORRENT, plainDecls.tr "Open" "Open donwloaded torrent")]] := by
  constructor
  · intro h
    have h2 := h finishedCalls (by decide)
    revert h2
    decide
  · rw [Manager.handleTorrentFinished, exec_executed]
    decide

/-- Claim C9, amended: the actions are enumerated in ascending order of identifier, the
order of the keys of a QMap. For every sequence of addAction calls with distinct
identifiers on a new Request, actions() yields exactly the (identifier, label) pairs of
the calls, each identifier smaller than the next ones; the Request built by
handleTorrentFinished lists the default/view action before the open-file action. -/
theorem actions_in_identifier_order (init : RequestInit) (calls : List (QString × QString))
    (hdistinct : (calls.map Prod.fst).Nodup) :
    List.Perm (addActions (Request.Request init) calls).actions calls ∧
    ActionsMap.Sorted (addActions (Request.Request init) calls).actions ∧
    ∀ (d : Decls) (torrent : TorrentHandle) (w : World), ∃ r : Request,
      (Manager.handleTorrentFinished d torrent w).executed = w.executed ++ [r] ∧
      r.actions = [(ACTION_NAME_DEFAULT, d.tr "View" "View torrent"),
        (ACTION_NAME_OPEN_FINISHED_TORRENT, d.tr "Open" "Open donwloaded torrent")] := by
  have h := ActionsMap.foldl_insert calls [] (by simp [ActionsMap.Sorted]) (by simpa using hdistinct)
  rw [addActions_actions]
  refine ⟨by simpa using h.1, h.2, ?_⟩
  intro d torrent w
  exact ⟨_, exec_executed _ w, rfl⟩

/-- Witness of C9 amended: the two calls of handleTorrentFinished. -/
theorem actions_in_identifier_order_witness :
    (finishedCalls.map Prod.fst).Nodup ∧
    List.Perm (addActions (Request.Request plainDecls.requestInit) finishedCalls).actions
      finishedCalls ∧
    ActionsMap.Sorted (addActions (Request.Request plainDecls.requestInit) finishedCalls).actions :=
  ⟨by decide,
   (actions_in_identifier_order plainDecls.requestInit finishedCalls (by decide)).1,
   (actions_in_identifier_order plainDecls.requestInit finishedCalls (by decide)).2.1⟩

/-! ## The fallback of resetNotifier -/

/-- What resetNotifier(null) does whatever the back-end selection, provided a pointer it
returns is null or points to a live notifier: the call ends normally, notifier() is not
null and the Manager owns the notifier; when the selection returned null, the notifier
is a new DummyNotifier. -/
theorem resetNotifier_null_any (createNotifier : World → Option Nat × World) (w : World)
    (hsel : ∀ (u : World) (a : Nat), (createNotifier u).1 = some a →
      ((createNotifier u).2.heap a).isSome = true) :
    ∃ (w1 : World) (a : Nat) (n : Notifier),
      Manager.resetNotifier createNotifier none w = Except.ok w1 ∧
      Manager.notifier w1 = some a ∧ w1.heap a = some n ∧
      n.parent = some QObjectRef.manager ∧
      ((createNotifier
          (match w.data w.m_notifier with
            | some old => w.delete old
            | none => w)).1 = none → n.cls = NotifierClass.DummyNotifier) := by
  unfold Manager.resetNotifier
  simp only
  generalize (match w.data w.m_notifier with
    | some old => w.delete old
    | none => w) = u
  cases hc : (createNotifier u).1 with
  | none =>
      have hlive : ((createNotifier u).2.newNotifier NotifierClass.DummyNotifier
          (some QObjectRef.manager)).2.heap
          ((createNotifier u).2.newNotifier NotifierClass.DummyNotifier
            (some QObjectRef.manager)).1
          = some { cls := NotifierClass.DummyNotifier, parent := some QObjectRef.manager } := by
        simp [World.newNotifier]
      obtain ⟨w1, hok, hn, hh⟩ := install_of_live _ _ _ hlive
      exact ⟨w1, _, _, hok, hn, hh, rfl, fun _ => rfl⟩
  | some a =>
      have hsome := hsel u a hc
      obtain ⟨n0, hn0⟩ := Option.isSome_iff_exists.1 hsome
      obtain ⟨w1, hok, hn, hh⟩ := install_of_live a n0 _ hn0
      refine ⟨w1, a, _, hok, hn, hh, rfl, ?_⟩
      intro hnone
      cases hnone

/-- Claim C11, the code at the failing input. A selection that produces nothing makes
resetNotifier(null) install a new DummyNotifier (address 8), as the claim says, and
resetNotifier(x) with the caller's notifier x (address 7) installs x. A further
resetNotifier(x) with the same non-null pointer deletes x first and then stores and uses
it: the call has no defined result, so notifier() is not a notifier after it. -/
theorem reset_again_leaves_no_notifier :
    Manager.resetNotifier noBackEnd none unmanagedWorld = Except.ok fallbackWorld ∧
    Manager.notifier fallbackWorld = some 8 ∧
    fallbackWorld.heap 8
      = some { cls := NotifierClass.DummyNotifier, parent := some QObjectRef.manager } ∧
    Manager.resetNotifier noBackEnd (some 7) fallbackWorld = Except.ok replacedWorld ∧
    Manager.notifier replacedWorld = some 7 ∧
    Manager.resetNotifier noBackEnd (some 7) replacedWorld
      = Except.error (Fault.deletedObjectUsed 7) :=
  ⟨rfl, by decide, by decide, rfl, by decide, rfl⟩

end Notifications
